import Mathlib

/-!
Shallow embedding of the particle typer of the sine_grapher repository.

The JavaScript source keeps its numeric state in IEEE doubles; the embedding
idealises them as real numbers (for the circle motion code, which divides and
takes square roots) and as rationals (for the typing controller, which only
adds and compares). Field names drop the leading underscore of the JS
private-by-convention names; otherwise every definition follows its source
function line by line.
-/

namespace SineTyper

/-- A 2D point, as the plain x/y records the JS code passes around. -/
structure Pt where
  x : ℝ
  y : ℝ

/-- The values Circle.js can store in its _behavior field. The frozen enum
object of Circle.js owns the three tags AMBIENT, ORBITING and TRAVELING, but
the lookup CircleBehavior[newBehavior] also walks the JS prototype chain: the
name of an Object.prototype member resolves to the inherited method (or, for
the proto accessor, to Object.prototype itself), a truthy value that is not a
tag, and setBehavior stores that value. The inheritedMember constructor
records the value such a name reaches through the chain. -/
inductive CircleBehavior where
  | AMBIENT
  | ORBITING
  | TRAVELING
  | inheritedMember (name : String)
deriving DecidableEq, Repr

/-- The string-keyed members of Object.prototype, the prototype of the frozen
enum object literal (the seven standard methods plus the Annex B accessors):
indexing the enum object with any of these names walks the prototype chain to
a truthy inherited value. -/
def objectPrototypeMembers : List String :=
  ["constructor", "hasOwnProperty", "isPrototypeOf", "propertyIsEnumerable",
   "toLocaleString", "toString", "valueOf", "__defineGetter__",
   "__defineSetter__", "__lookupGetter__", "__lookupSetter__", "__proto__"]

/-- The lookup CircleBehavior[newBehavior] of Circle.js setBehavior: an own
key of the frozen enum object yields its tag (keys equal values); any other
string falls through to the prototype chain, where the name of an
Object.prototype member yields the truthy inherited member; every remaining
string is undefined, hence falsy, here none. -/
def behaviorLookup (s : String) : Option CircleBehavior :=
  if s = "AMBIENT" then some CircleBehavior.AMBIENT
  else if s = "ORBITING" then some CircleBehavior.ORBITING
  else if s = "TRAVELING" then some CircleBehavior.TRAVELING
  else if s ∈ objectPrototypeMembers then some (CircleBehavior.inheritedMember s)
  else none

/-- The RADIANS table of src/constants.js: the sixteen radian values listed on
the unit circle, in order. -/
noncomputable def RADIANS : List ℝ :=
  [0,
   Real.pi / 6,
   Real.pi / 4,
   Real.pi / 3,
   Real.pi / 2,
   2 * Real.pi / 3,
   3 * Real.pi / 4,
   5 * Real.pi / 6,
   Real.pi,
   7 * Real.pi / 6,
   5 * Real.pi / 4,
   4 * Real.pi / 3,
   3 * Real.pi / 2,
   5 * Real.pi / 3,
   7 * Real.pi / 4,
   11 * Real.pi / 6]

/-- SIN_VALUES of the sine_grapher constants: RADIANS mapped through sin. -/
noncomputable def SIN_VALUES : List ℝ := RADIANS.map Real.sin

/-- Modelled from the spec: the typer constants file defining COS_VALUES is
not among the repository files (Orbit.js only imports it). The spec describes
the advanced orbit point as center plus radius times (cos theta, sin theta),
so COS_VALUES pairs the radian table with cos exactly as SIN_VALUES pairs it
with sin. -/
noncomputable def COS_VALUES : List ℝ := RADIANS.map Real.cos

/-- The successive differences of a list, used to state spacing facts about
the RADIANS table. -/
def successiveDiffs (l : List ℝ) : List ℝ :=
  (l.zip l.tail).map (fun p => p.2 - p.1)

/-- C9. The orbit sample table RADIANS contains exactly 16 unit-circle
angles, but they are NOT evenly spaced: the successive differences alternate
between pi/6 and pi/12 in the quadrant pattern (pi/6, pi/12, pi/12, pi/6),
rather than all equalling 2 pi / 16. -/
theorem C9_radians_sixteen_not_evenly_spaced :
    RADIANS.length = 16 ∧
    successiveDiffs RADIANS =
      [Real.pi / 6, Real.pi / 12, Real.pi / 12, Real.pi / 6,
       Real.pi / 6, Real.pi / 12, Real.pi / 12, Real.pi / 6,
       Real.pi / 6, Real.pi / 12, Real.pi / 12, Real.pi / 6,
       Real.pi / 6, Real.pi / 12, Real.pi / 12] := by
  constructor
  · rfl
  · norm_num [successiveDiffs, RADIANS]
    ring_nf
    simp

/-- C9, counterexample to the claim as stated: the very first two gaps of the
RADIANS table already differ, and neither equals the claimed common increment
2 pi / 16. -/
theorem C9_cex_not_evenly_spaced :
    ¬(RADIANS.getD 1 0 - RADIANS.getD 0 0 = RADIANS.getD 2 0 - RADIANS.getD 1 0) ∧
    ¬(RADIANS.getD 1 0 - RADIANS.getD 0 0 = 2 * Real.pi / 16) := by
  have hpi := Real.pi_ne_zero
  constructor
  · simp only [RADIANS, List.getD]
    intro h
    norm_num at h
    apply hpi
    linarith
  · simp only [RADIANS, List.getD]
    intro h
    norm_num at h
    apply hpi
    linarith

/-- The Orbit object of Orbit.js / part_006: a center, a radius, the current
index into the angle tables, and the per-frame travel divisor that the circle
motion code reads as travelFactor. -/
structure Orbit where
  x : ℝ
  y : ℝ
  radius : ℝ
  currentAngleIndex : ℕ
  travelFactor : ℝ

/-- The Orbit constructor: the angle index starts at 0 and the travel divisor
is randomized as floor(rnd * 5) + 1, rnd being the Math.random draw in [0,1).
(The final Orbit.js stores this draw under the name travelFrames while Circle
reads travelFactor; the model keeps the one field the motion code consumes,
as in the part_006 iteration where the constructor fills travelFactor.) -/
noncomputable def Orbit.new (x y radius rnd : ℝ) : Orbit :=
  { x := x, y := y, radius := radius, currentAngleIndex := 0,
    travelFactor := ((Int.floor (rnd * 5) : ℤ) : ℝ) + 1 }

/-- Orbit.followOrbit: returns the point center + table[i] * radius for the
current angle index i, then increments i, wrapping to 0 when it reaches the
table length (16). -/
noncomputable def Orbit.followOrbit (o : Orbit) : Pt × Orbit :=
  let newXCoordinate := o.x + COS_VALUES.getD o.currentAngleIndex 0 * o.radius
  let newYCoordinate := o.y + SIN_VALUES.getD o.currentAngleIndex 0 * o.radius
  let next := o.currentAngleIndex + 1
  let wrapped := if next = SIN_VALUES.length then 0 else next
  (⟨newXCoordinate, newYCoordinate⟩,
   { o with currentAngleIndex := wrapped })

/-- The orbit state after n successive followOrbit calls. -/
noncomputable def Orbit.iterate (o : Orbit) : ℕ → Orbit
  | 0 => o
  | n + 1 => (Orbit.iterate o n).followOrbit.2

/-- The point produced by the (n+1)-th followOrbit call after state o. -/
noncomputable def Orbit.pointAt (o : Orbit) (n : ℕ) : Pt :=
  (o.iterate n).followOrbit.1

theorem followOrbit_center (o : Orbit) :
    o.followOrbit.2.x = o.x ∧ o.followOrbit.2.y = o.y ∧
      o.followOrbit.2.radius = o.radius := by
  simp [Orbit.followOrbit]

theorem followOrbit_index (o : Orbit) (h : o.currentAngleIndex < 16) :
    o.followOrbit.2.currentAngleIndex = (o.currentAngleIndex + 1) % 16 := by
  have hlen : SIN_VALUES.length = 16 := by
    simp [SIN_VALUES, RADIANS]
  simp only [Orbit.followOrbit, hlen]
  by_cases hc : o.currentAngleIndex + 1 = 16
  · simp [hc]
  · simp only [hc, if_false]
    omega

theorem iterate_fields (o : Orbit) (n : ℕ) :
    (o.iterate n).x = o.x ∧ (o.iterate n).y = o.y ∧
      (o.iterate n).radius = o.radius := by
  induction n with
  | zero => exact ⟨rfl, rfl, rfl⟩
  | succ n ih =>
    obtain ⟨hx, hy, hr⟩ := ih
    obtain ⟨hx2, hy2, hr2⟩ := followOrbit_center (o.iterate n)
    exact ⟨by rw [Orbit.iterate, hx2, hx], by rw [Orbit.iterate, hy2, hy],
      by rw [Orbit.iterate, hr2, hr]⟩

theorem iterate_index (o : Orbit) (h : o.currentAngleIndex < 16) (n : ℕ) :
    (o.iterate n).currentAngleIndex = (o.currentAngleIndex + n) % 16 := by
  induction n with
  | zero => simp [Orbit.iterate, Nat.mod_eq_of_lt h]
  | succ n ih =>
    have hlt : (o.iterate n).currentAngleIndex < 16 := by
      rw [ih]; exact Nat.mod_lt _ (by norm_num)
    rw [Orbit.iterate, followOrbit_index _ hlt, ih]
    omega

theorem getD_cos (i : ℕ) (h : i < 16) :
    COS_VALUES.getD i 0 = Real.cos (RADIANS.getD i 0) := by
  have hlen : RADIANS.length = 16 := by simp [RADIANS]
  have h1 : i < COS_VALUES.length := by simp [COS_VALUES, hlen, h]
  have h2 : i < RADIANS.length := by omega
  rw [List.getD_eq_getElem _ _ h1, List.getD_eq_getElem _ _ h2]
  simp [COS_VALUES]

theorem getD_sin (i : ℕ) (h : i < 16) :
    SIN_VALUES.getD i 0 = Real.sin (RADIANS.getD i 0) := by
  have hlen : RADIANS.length = 16 := by simp [RADIANS]
  have h1 : i < SIN_VALUES.length := by simp [SIN_VALUES, hlen, h]
  have h2 : i < RADIANS.length := by omega
  rw [List.getD_eq_getElem _ _ h1, List.getD_eq_getElem _ _ h2]
  simp [SIN_VALUES]

/-- C4. Each followOrbit call returns center + radius * (cos theta_i,
sin theta_i) for the current sample index i and increments i modulo the
16-entry table, wrapping to 0; sixteen calls starting from a freshly
constructed orbit (index 0) return the index to 0, and the produced points
repeat with period 16 indefinitely, the call never failing (it is total). -/
theorem C4_followOrbit_cycles (o : Orbit) (x y radius rnd : ℝ) (n : ℕ)
    (h : o.currentAngleIndex < 16) :
    o.followOrbit.1 =
      ⟨o.x + Real.cos (RADIANS.getD o.currentAngleIndex 0) * o.radius,
       o.y + Real.sin (RADIANS.getD o.currentAngleIndex 0) * o.radius⟩ ∧
    o.followOrbit.2.currentAngleIndex = (o.currentAngleIndex + 1) % 16 ∧
    (Orbit.new x y radius rnd).currentAngleIndex = 0 ∧
    ((Orbit.new x y radius rnd).iterate 16).currentAngleIndex = 0 ∧
    o.pointAt (n + 16) = o.pointAt n := by
  refine ⟨?_, followOrbit_index o h, rfl, ?_, ?_⟩
  · simp only [Orbit.followOrbit, getD_cos _ h, getD_sin _ h]
  · rw [iterate_index _ (by simp [Orbit.new]) 16]
    simp [Orbit.new]
  · have hidx : (o.iterate (n + 16)).currentAngleIndex =
        (o.iterate n).currentAngleIndex := by
      rw [iterate_index o h, iterate_index o h]
      omega
    obtain ⟨hx1, hy1, hr1⟩ := iterate_fields o (n + 16)
    obtain ⟨hx2, hy2, hr2⟩ := iterate_fields o n
    simp only [Orbit.pointAt, Orbit.followOrbit, hidx, hx1, hy1, hr1, hx2,
      hy2, hr2]

/-- C4, witness: the theorem instantiated at a freshly constructed concrete
orbit, whose angle index 0 satisfies the index bound. -/
theorem C4_followOrbit_cycles_witness :
    (Orbit.new 0 0 1 0).followOrbit.1 =
      ⟨(Orbit.new 0 0 1 0).x +
         Real.cos (RADIANS.getD (Orbit.new 0 0 1 0).currentAngleIndex 0) *
           (Orbit.new 0 0 1 0).radius,
       (Orbit.new 0 0 1 0).y +
         Real.sin (RADIANS.getD (Orbit.new 0 0 1 0).currentAngleIndex 0) *
           (Orbit.new 0 0 1 0).radius⟩ ∧
    (Orbit.new 0 0 1 0).followOrbit.2.currentAngleIndex =
      ((Orbit.new 0 0 1 0).currentAngleIndex + 1) % 16 ∧
    (Orbit.new 2 3 4 0).currentAngleIndex = 0 ∧
    ((Orbit.new 2 3 4 0).iterate 16).currentAngleIndex = 0 ∧
    (Orbit.new 0 0 1 0).pointAt (0 + 16) = (Orbit.new 0 0 1 0).pointAt 0 :=
  C4_followOrbit_cycles (Orbit.new 0 0 1 0) 2 3 4 0 0 (by simp [Orbit.new])

section CircleModel

open scoped Classical

/-- The per-axis TRAVELING divisors that Circle.js imports as TRAVEL_FACTOR
(the defining constants file is not among the repository files, so the two
values stay parameters of the model, as the spec fixes no number). -/
structure TravelFactor where
  x : ℝ
  y : ℝ

/-- The canvas bounds destructured by Circle.update. -/
structure Bounds where
  width : ℝ
  height : ℝ

/-- The Circle object of Circle.js: position, velocity, visual radius, color,
behavior tag, optional travel destination and optional owned orbit. -/
structure Circle where
  x : ℝ
  y : ℝ
  dx : ℝ
  dy : ℝ
  radius : ℝ
  color : String
  behavior : CircleBehavior
  destination : Option Pt
  orbit : Option Orbit

/-- The detail of the changedbehavior CustomEvent dispatched on a behavior
change: the circle reference (its state at dispatch time), the old behavior
and the new behavior. -/
structure BehaviorEvent where
  circle : Circle
  fromBehavior : CircleBehavior
  toBehavior : CircleBehavior

/-- Circle.moveTo: overwrite the coordinates. -/
def Circle.moveTo (c : Circle) (x y : ℝ) : Circle :=
  { c with x := x, y := y }

/-- Circle.setDestination. -/
def Circle.setDestination (c : Circle) (dest : Pt) : Circle :=
  { c with destination := some dest }

/-- Circle.setOrbit: store the orbit, then set the destination to the result
of followOrbit on it; followOrbit mutates the stored orbit, so the kept orbit
is the advanced one. -/
noncomputable def Circle.setOrbit (c : Circle) (orbit : Orbit) : Circle :=
  let r := orbit.followOrbit
  { c with orbit := some r.2, destination := some r.1 }

/-- Circle.hasReacedDestination (name as in the source): the Euclidean
distance from the position to the destination is below the threshold. The
callers all guard the destination, so the missing-destination branch (a JS
TypeError) is never reached and is rendered False. -/
noncomputable def Circle.hasReacedDestination (c : Circle) (threshold : ℝ) :
    Prop :=
  match c.destination with
  | none => False
  | some dest =>
      Real.sqrt ((c.x - dest.x) ^ 2 + (c.y - dest.y) ^ 2) < threshold

/-- Circle.setBehavior: reject a string that is not a key of the behavior
enum; when switching to ORBITING with the setOrbit flag, build a fresh Orbit
centered at the current position whose radius is the random draw scaled by
the visual radius plus 2; finally store the new behavior tag. The two rnd
arguments stand for the Math.random draws of the orbit radius and of the
orbit travel divisor. -/
noncomputable def Circle.setBehavior (c : Circle) (newBehavior : String)
    (setOrbitFlag : Bool) (rndRadius rndTravel : ℝ) : Except String Circle :=
  match behaviorLookup newBehavior with
  | none => Except.error "Invalid behavior."
  | some b =>
      let c1 :=
        if b = CircleBehavior.ORBITING ∧ setOrbitFlag = true then
          c.setOrbit (Orbit.new c.x c.y (rndRadius * c.radius + 2) rndTravel)
        else c
      Except.ok { c1 with behavior := b }

/-- Circle updateDX: negate the x velocity when either horizontal side of
the circle has reached the bounds. -/
noncomputable def Circle.updateDX (c : Circle) (min max : ℝ) : Circle :=
  if c.x + c.radius ≥ max ∨ c.x - c.radius ≤ min then { c with dx := -c.dx }
  else c

/-- Circle updateDY: negate the y velocity when either vertical side of
the circle has reached the bounds. -/
noncomputable def Circle.updateDY (c : Circle) (min max : ℝ) : Circle :=
  if c.y + c.radius ≥ max ∨ c.y - c.radius ≤ min then { c with dy := -c.dy }
  else c

/-- Circle updatePositionWithVelocity: add the velocities to the position. -/
def Circle.updatePositionWithVelocity (c : Circle) : Circle :=
  { c with x := c.x + c.dx, y := c.y + c.dy }

/-- Circle handleAmbient: reject falsy bounds, then bounce-check each axis
against [0, bound] and move by the velocity. -/
noncomputable def Circle.handleAmbient (c : Circle)
    (maxHorizontal maxVertical : ℝ) : Except String Circle :=
  if maxHorizontal = 0 ∨ maxVertical = 0 then
    Except.error "Both bounds must be provided."
  else
    Except.ok (((c.updateDX 0 maxHorizontal).updateDY 0
      maxVertical).updatePositionWithVelocity)

/-- Circle handleOrbiting: reject a missing orbit; move a fraction of the
remaining distance to the destination using the orbit travel divisor; on
arrival within the threshold replace the destination by the next followOrbit
point (the stored orbit advancing with it). -/
noncomputable def Circle.handleOrbiting (c : Circle) (threshold : ℝ) :
    Except String (Circle × List BehaviorEvent) :=
  match c.orbit with
  | none => Except.error "This Circle does not have an Orbit object."
  | some orbit =>
      match c.destination with
      | none => Except.error "TypeError: undefined destination"
      | some dest =>
          let inbetweenX := c.x + (dest.x - c.x) / orbit.travelFactor
          let inbetweenY := c.y + (dest.y - c.y) / orbit.travelFactor
          let moved := c.moveTo inbetweenX inbetweenY
          if moved.hasReacedDestination threshold then
            let r := orbit.followOrbit
            let arrived := { moved with destination := some r.1, orbit := some r.2 }
            Except.ok (arrived, [])
          else
            Except.ok (moved, [])

/-- Circle handleTraveling: reject a missing destination; advance by the
remaining distance divided by the per-axis travel factor; if the destination
is then within the threshold, dispatch one changedbehavior event (carrying
the circle, the old behavior and ORBITING) and switch to ORBITING with a
fresh orbit. -/
noncomputable def Circle.handleTraveling (c : Circle) (tf : TravelFactor)
    (threshold rndRadius rndTravel : ℝ) :
    Except String (Circle × List BehaviorEvent) :=
  match c.destination with
  | none => Except.error "This Circle does not have a destination to travel to."
  | some dest =>
      let nextX := c.x + (dest.x - c.x) / tf.x
      let nextY := c.y + (dest.y - c.y) / tf.y
      let moved := c.moveTo nextX nextY
      if moved.hasReacedDestination threshold then
        match moved.setBehavior "ORBITING" true rndRadius rndTravel with
        | Except.error e => Except.error e
        | Except.ok c2 =>
            Except.ok (c2,
              [⟨moved, moved.behavior, CircleBehavior.ORBITING⟩])
      else
        Except.ok (moved, [])

/-- Circle.update: dispatch on the behavior tag. The event list collects the
changedbehavior dispatches of the frame. The switch has no default case, so a
stored inherited non-tag value matches no case and the frame does nothing. -/
noncomputable def Circle.update (c : Circle) (bounds : Option Bounds)
    (tf : TravelFactor) (threshold rndRadius rndTravel : ℝ) :
    Except String (Circle × List BehaviorEvent) :=
  match c.behavior with
  | CircleBehavior.AMBIENT =>
      match bounds with
      | none => Except.error "Both bounds must be provided."
      | some b =>
          (c.handleAmbient b.width b.height).map (fun c2 => (c2, []))
  | CircleBehavior.ORBITING => c.handleOrbiting threshold
  | CircleBehavior.TRAVELING => c.handleTraveling tf threshold rndRadius rndTravel
  | CircleBehavior.inheritedMember _ => Except.ok (c, [])

/-- n successive frames of Circle.update, collecting the dispatched events;
rnds supplies the Math.random draws of each frame. -/
noncomputable def Circle.updateRun (bounds : Option Bounds) (tf : TravelFactor)
    (threshold : ℝ) (rnds : ℕ → ℝ × ℝ) :
    ℕ → Circle → Except String (Circle × List BehaviorEvent)
  | 0, c => Except.ok (c, [])
  | n + 1, c =>
      match c.update bounds tf threshold (rnds n).1 (rnds n).2 with
      | Except.error e => Except.error e
      | Except.ok (c2, evs) =>
          match Circle.updateRun bounds tf threshold rnds n c2 with
          | Except.error e => Except.error e
          | Except.ok (c3, evs2) => Except.ok (c3, evs ++ evs2)

/-- C7. setBehavior fails with the InvalidArgument error exactly when the
string is neither one of the three tags AMBIENT, ORBITING, TRAVELING nor the
name of an inherited Object.prototype member; it succeeds on the three tags,
and — the lookup walking the prototype chain — it also succeeds on an
Object.prototype member name such as toString, silently storing the
inherited non-tag value as the behavior; switching into ORBITING with the
setOrbit flag builds a fresh OrbitPath centered at the current position of
the circle. -/
theorem C7_setBehavior_validates_tags (c : Circle) (s : String)
    (setOrbitFlag : Bool) (rndRadius rndTravel : ℝ) :
    (¬(s = "AMBIENT" ∨ s = "ORBITING" ∨ s = "TRAVELING" ∨
        s ∈ objectPrototypeMembers) →
      c.setBehavior s setOrbitFlag rndRadius rndTravel =
        Except.error "Invalid behavior.") ∧
    ((s = "AMBIENT" ∨ s = "ORBITING" ∨ s = "TRAVELING") →
      ∃ c2, c.setBehavior s setOrbitFlag rndRadius rndTravel = Except.ok c2) ∧
    (s ∈ objectPrototypeMembers →
      c.setBehavior s setOrbitFlag rndRadius rndTravel =
        Except.ok { c with behavior := CircleBehavior.inheritedMember s }) ∧
    (c.setBehavior "ORBITING" true rndRadius rndTravel).map
        (fun c2 => c2.orbit.map (fun o => (o.x, o.y))) =
      Except.ok (some (c.x, c.y)) := by
  refine ⟨?_, ?_, ?_, ?_⟩
  · intro hs
    push_neg at hs
    obtain ⟨h1, h2, h3, h4⟩ := hs
    simp [Circle.setBehavior, behaviorLookup, h1, h2, h3, h4]
  · intro hs
    rcases hs with h | h | h <;> subst h <;>
      simp [Circle.setBehavior, behaviorLookup]
  · intro hs
    have hs2 := hs
    simp only [objectPrototypeMembers, List.mem_cons, List.not_mem_nil,
      or_false] at hs2
    rcases hs2 with rfl | rfl | rfl | rfl | rfl | rfl | rfl | rfl | rfl | rfl | rfl | rfl <;>
      simp [Circle.setBehavior, behaviorLookup, objectPrototypeMembers]
  · simp only [Circle.setBehavior, behaviorLookup]
    norm_num
    simp [Circle.setOrbit, Orbit.followOrbit, Orbit.new, Except.map]

/-- A concrete circle for exercising setBehavior. -/
noncomputable def c7c : Circle :=
  { x := 1, y := 2, dx := 0, dy := 0, radius := 3, color := "c",
    behavior := CircleBehavior.AMBIENT, destination := none, orbit := none }

/-- C7, counterexample to the claim as stated: "toString" is not one of the
three recognized tags, yet setBehavior does not throw on it — the lookup
CircleBehavior[newBehavior] walks the prototype chain to the truthy
inherited Object.prototype method, so the circle is returned with the
inherited non-tag value stored as its behavior. -/
theorem C7_cex_inherited_name_no_throw :
    ¬("toString" = "AMBIENT" ∨ "toString" = "ORBITING" ∨
      "toString" = "TRAVELING") ∧
    c7c.setBehavior "toString" false 0 0 =
      Except.ok { c7c with behavior := CircleBehavior.inheritedMember "toString" } := by
  refine ⟨by decide, ?_⟩
  simp [Circle.setBehavior, behaviorLookup, objectPrototypeMembers]

/-- C1. A TRAVELING update moves the circle by (dest − position) divided by
the per-axis travel factor; if the moved position is then within the
threshold of the destination, the circle switches to ORBITING with a fresh
orbit centered at its current (moved) position whose radius is the random
draw scaled by the visual radius plus 2, its destination becomes the first
advanced point of that orbit, and exactly one changedbehavior event carrying
the circle, the old behavior and the new behavior is dispatched; otherwise no
event is dispatched. -/
theorem C1_traveling_update (c : Circle) (dest : Pt) (bounds : Option Bounds)
    (tf : TravelFactor) (threshold rndRadius rndTravel : ℝ)
    (hb : c.behavior = CircleBehavior.TRAVELING)
    (hd : c.destination = some dest) :
    let moved := c.moveTo (c.x + (dest.x - c.x) / tf.x)
      (c.y + (dest.y - c.y) / tf.y)
    let orb := Orbit.new moved.x moved.y (rndRadius * c.radius + 2) rndTravel
    let transitioned : Circle := { moved with behavior := CircleBehavior.ORBITING, orbit := some orb.followOrbit.2, destination := some orb.followOrbit.1 }
    (moved.hasReacedDestination threshold →
      c.update bounds tf threshold rndRadius rndTravel =
        Except.ok (transitioned,
          [⟨moved, CircleBehavior.TRAVELING, CircleBehavior.ORBITING⟩])) ∧
    (¬moved.hasReacedDestination threshold →
      c.update bounds tf threshold rndRadius rndTravel =
        Except.ok (moved, [])) := by
  intro moved orb transitioned
  have hmb : (c.moveTo (c.x + (dest.x - c.x) / tf.x)
      (c.y + (dest.y - c.y) / tf.y)).behavior = CircleBehavior.TRAVELING := hb
  constructor
  · intro hr
    simp only [Circle.update, hb, Circle.handleTraveling, hd]
    rw [if_pos hr]
    simp [Circle.setBehavior, behaviorLookup, Circle.setOrbit, hmb]
    rfl
  · intro hr
    simp only [Circle.update, hb, Circle.handleTraveling, hd]
    rw [if_neg hr]

/-- C1, witness: the theorem instantiated at a concrete circle sitting on its
own destination (so the arrival branch is inhabited), with threshold 1,
travel divisors 2 and zero random draws. -/
theorem C1_traveling_update_witness :
    let c : Circle :=
      { x := 0, y := 0, dx := 0, dy := 0, radius := 5, color := "",
        behavior := CircleBehavior.TRAVELING, destination := some ⟨0, 0⟩,
        orbit := none }
    let dest : Pt := ⟨0, 0⟩
    let moved := c.moveTo (c.x + (dest.x - c.x) / (2 : ℝ))
      (c.y + (dest.y - c.y) / (2 : ℝ))
    let orb := Orbit.new moved.x moved.y (0 * c.radius + 2) 0
    let transitioned : Circle := { moved with behavior := CircleBehavior.ORBITING, orbit := some orb.followOrbit.2, destination := some orb.followOrbit.1 }
    (moved.hasReacedDestination 1 →
      c.update none ⟨2, 2⟩ 1 0 0 =
        Except.ok (transitioned,
          [⟨moved, CircleBehavior.TRAVELING, CircleBehavior.ORBITING⟩])) ∧
    (¬moved.hasReacedDestination 1 →
      c.update none ⟨2, 2⟩ 1 0 0 = Except.ok (moved, [])) :=
  C1_traveling_update _ ⟨0, 0⟩ none ⟨2, 2⟩ 1 0 0 rfl rfl

/-- The C8 scenario circle: both coordinates v, velocity 0, visual radius 5
(the value drawCharacter assigns), destination (10, 10), TRAVELING. -/
noncomputable def c8at (v : ℝ) : Circle :=
  { x := v, y := v, dx := 0, dy := 0, radius := 5, color := "",
    behavior := CircleBehavior.TRAVELING, destination := some ⟨10, 10⟩,
    orbit := none }

theorem traveling_noarrive (c : Circle) (dest : Pt) (bounds : Option Bounds)
    (tf : TravelFactor) (threshold r1 r2 : ℝ)
    (hb : c.behavior = CircleBehavior.TRAVELING)
    (hd : c.destination = some dest)
    (hfar : ¬(c.moveTo (c.x + (dest.x - c.x) / tf.x)
      (c.y + (dest.y - c.y) / tf.y)).hasReacedDestination threshold) :
    c.update bounds tf threshold r1 r2 =
      Except.ok (c.moveTo (c.x + (dest.x - c.x) / tf.x)
        (c.y + (dest.y - c.y) / tf.y), []) := by
  simp only [Circle.update, hb, Circle.handleTraveling, hd]
  rw [if_neg hfar]

theorem c8_not_reached (w : ℝ) (hw : 1 ≤ (w - 10) ^ 2 + (w - 10) ^ 2) :
    ¬(c8at w).hasReacedDestination 1 := by
  simp only [Circle.hasReacedDestination, c8at]
  rw [Real.sqrt_lt' one_pos]
  norm_num
  linarith

theorem c8_step (v r1 r2 : ℝ)
    (hfar : 1 ≤ (v + (10 - v) / 2 - 10) ^ 2 + (v + (10 - v) / 2 - 10) ^ 2) :
    (c8at v).update none ⟨2, 2⟩ 1 r1 r2 =
      Except.ok (c8at (v + (10 - v) / 2), []) :=
  traveling_noarrive (c8at v) ⟨10, 10⟩ none ⟨2, 2⟩ 1 r1 r2 rfl rfl
    (c8_not_reached (v + (10 - v) / 2) hfar)

theorem c8_arrive (r1 r2 : ℝ) :
    ∃ c2 ev, (c8at (35 / 4)).update none ⟨2, 2⟩ 1 r1 r2 =
        Except.ok (c2, [ev]) ∧
      c2.behavior = CircleBehavior.ORBITING ∧ c2.orbit.isSome = true ∧
      c2.destination.isSome = true := by
  have hnear : Circle.hasReacedDestination ((c8at (35 / 4)).moveTo
      ((c8at (35 / 4)).x + (((10 : ℝ)) - (c8at (35 / 4)).x) / (2 : ℝ))
      ((c8at (35 / 4)).y + (((10 : ℝ)) - (c8at (35 / 4)).y) / (2 : ℝ))) 1 := by
    simp only [Circle.hasReacedDestination, Circle.moveTo, c8at]
    rw [Real.sqrt_lt' one_pos]
    norm_num
  simp only [Circle.update, Circle.handleTraveling, c8at]
  simp only [c8at] at hnear
  rw [if_pos hnear]
  exact ⟨_, _, rfl, rfl, rfl, rfl⟩

theorem updateRun_cons {bounds : Option Bounds} {tf : TravelFactor}
    {threshold : ℝ} {rnds : ℕ → ℝ × ℝ} {n : ℕ} {c c2 : Circle}
    {evs : List BehaviorEvent}
    (h : c.update bounds tf threshold (rnds n).1 (rnds n).2 =
      Except.ok (c2, evs)) :
    Circle.updateRun bounds tf threshold rnds (n + 1) c =
      (Circle.updateRun bounds tf threshold rnds n c2).map
        (fun r => (r.1, evs ++ r.2)) := by
  rw [Circle.updateRun, h]
  dsimp only
  rcases Circle.updateRun bounds tf threshold rnds n c2 with e | pr
  · simp [Except.map]
  · rcases pr with ⟨c3, evs2⟩
    simp [Except.map]

theorem orbiting_step (c : Circle) (bounds : Option Bounds)
    (tf : TravelFactor) (threshold r1 r2 : ℝ)
    (hb : c.behavior = CircleBehavior.ORBITING) (ho : c.orbit.isSome = true)
    (hd : c.destination.isSome = true) :
    ∃ c2, c.update bounds tf threshold r1 r2 = Except.ok (c2, []) ∧
      c2.behavior = CircleBehavior.ORBITING ∧ c2.orbit.isSome = true ∧
      c2.destination.isSome = true := by
  obtain ⟨o, ho2⟩ := Option.isSome_iff_exists.mp ho
  obtain ⟨d, hd2⟩ := Option.isSome_iff_exists.mp hd
  simp only [Circle.update, hb, Circle.handleOrbiting, ho2, hd2]
  by_cases harr : (c.moveTo (c.x + (d.x - c.x) / o.travelFactor)
      (c.y + (d.y - c.y) / o.travelFactor)).hasReacedDestination threshold
  · rw [if_pos harr]
    exact ⟨_, rfl, hb, rfl, rfl⟩
  · rw [if_neg harr]
    exact ⟨_, rfl, hb, by simpa [Circle.moveTo] using ho,
      by simpa [Circle.moveTo] using hd⟩

theorem orbiting_run (bounds : Option Bounds) (tf : TravelFactor)
    (threshold : ℝ) (rnds : ℕ → ℝ × ℝ) :
    ∀ (n : ℕ) (c : Circle), c.behavior = CircleBehavior.ORBITING →
      c.orbit.isSome = true → c.destination.isSome = true →
      ∃ c2, Circle.updateRun bounds tf threshold rnds n c =
          Except.ok (c2, []) ∧ c2.behavior = CircleBehavior.ORBITING := by
  intro n
  induction n with
  | zero => exact fun c hb _ _ => ⟨c, rfl, hb⟩
  | succ n ih =>
    intro c hb ho hd
    obtain ⟨c2, h2, hb2, ho2, hd2⟩ :=
      orbiting_step c bounds tf threshold (rnds n).1 (rnds n).2 hb ho hd
    obtain ⟨c3, h3, hb3⟩ := ih c2 hb2 ho2 hd2
    exact ⟨c3, by rw [updateRun_cons h2, h3]; simp [Except.map], hb3⟩

/-- C8. A particle constructed TRAVELING at (0,0) with destination (10,10),
threshold 1 and travel divisor 2 on both axes reaches ORBITING within a
bounded number of update calls — it is ORBITING after every run of 4 or more
frames — and across the whole run exactly one changedbehavior reclassification
event is dispatched, whatever the random draws of each frame. -/
theorem C8_traveling_reaches_orbiting (rnds : ℕ → ℝ × ℝ) (n : ℕ) :
    (Circle.updateRun none ⟨2, 2⟩ 1 rnds (n + 4) (c8at 0)).map
        (fun r => (r.1.behavior, r.2.length)) =
      Except.ok (CircleBehavior.ORBITING, 1) := by
  have h1 : (c8at 0).update none ⟨2, 2⟩ 1 (rnds (n + 3)).1 (rnds (n + 3)).2 =
      Except.ok (c8at 5, []) := by
    have := c8_step 0 (rnds (n + 3)).1 (rnds (n + 3)).2 (by norm_num)
    rw [show (0 : ℝ) + (10 - 0) / 2 = 5 by norm_num] at this
    exact this
  have h2 : (c8at 5).update none ⟨2, 2⟩ 1 (rnds (n + 2)).1 (rnds (n + 2)).2 =
      Except.ok (c8at (15 / 2), []) := by
    have := c8_step 5 (rnds (n + 2)).1 (rnds (n + 2)).2 (by norm_num)
    rw [show (5 : ℝ) + (10 - 5) / 2 = 15 / 2 by norm_num] at this
    exact this
  have h3 : (c8at (15 / 2)).update none ⟨2, 2⟩ 1 (rnds (n + 1)).1
      (rnds (n + 1)).2 = Except.ok (c8at (35 / 4), []) := by
    have := c8_step (15 / 2) (rnds (n + 1)).1 (rnds (n + 1)).2 (by norm_num)
    rw [show (15 : ℝ) / 2 + (10 - 15 / 2) / 2 = 35 / 4 by norm_num] at this
    exact this
  obtain ⟨c2, ev, h4, hb4, ho4, hd4⟩ := c8_arrive (rnds n).1 (rnds n).2
  obtain ⟨c3, h5, hb5⟩ := orbiting_run none ⟨2, 2⟩ 1 rnds n c2 hb4 ho4 hd4
  rw [show n + 4 = (n + 3) + 1 from rfl, updateRun_cons h1,
    updateRun_cons h2, updateRun_cons h3, updateRun_cons h4, h5]
  simp [Except.map, hb5]

/-- One axis of the ambient bounce: negate the velocity component when the
position plus or minus the radius has crossed [0, bound], then add it to the
position — exactly the composition updateDX/updateDY then the move, on one
axis. The pair is (position, velocity). -/
noncomputable def axStep (radius bound : ℝ) (p : ℝ × ℝ) : ℝ × ℝ :=
  let d := if p.1 + radius ≥ bound ∨ p.1 - radius ≤ 0 then -p.2 else p.2
  (p.1 + d, d)

/-- The inductive invariant of the one-axis bounce with speed v: the velocity
is plus or minus v, the position sits in the radius-adjusted interval widened
by v on both sides, and outside the adjusted interval the velocity points
back in on the next frame (it is outward now, so the coming flip reverses
it). -/
def axInv (radius bound v : ℝ) (p : ℝ × ℝ) : Prop :=
  (p.2 = v ∨ p.2 = -v) ∧ radius - v ≤ p.1 ∧ p.1 ≤ bound - radius + v ∧
    (bound - radius < p.1 → p.2 = v) ∧ (p.1 < radius → p.2 = -v)

theorem axStep_inv (radius bound v : ℝ) (hv : 0 ≤ v) (hr : 0 ≤ radius)
    (hb : 2 * radius ≤ bound) (p : ℝ × ℝ) (hp : axInv radius bound v p) :
    axInv radius bound v (axStep radius bound p) := by
  obtain ⟨x, d⟩ := p
  obtain ⟨hs, hlo, hhi, htop, hbot⟩ := hp
  simp only at hs hlo hhi htop hbot
  by_cases hf : x + radius ≥ bound ∨ x - radius ≤ 0
  · simp only [axStep, if_pos hf, axInv]
    rcases hs with h | h
    · rw [h]
      rcases hf with hft | hfb
      · exact ⟨Or.inr rfl, by linarith, by linarith,
          fun hc => absurd hc (not_lt.mpr (by linarith)), fun _ => rfl⟩
      · by_cases hx : x < radius
        · have hv0 : v = 0 := by
            have h2 := hbot hx
            rw [h] at h2
            linarith
          exact ⟨Or.inr rfl, by linarith, by linarith,
            fun hc => by linarith, fun _ => rfl⟩
        · push_neg at hx
          exact ⟨Or.inr rfl, by linarith, by linarith,
            fun hc => absurd hc (not_lt.mpr (by linarith)), fun _ => rfl⟩
    · rw [h, neg_neg]
      rcases hf with hft | hfb
      · by_cases hx : bound - radius < x
        · have hv0 : v = 0 := by
            have h2 := htop hx
            rw [h] at h2
            linarith
          exact ⟨Or.inl rfl, by linarith, by linarith, fun _ => rfl,
            fun hc => by linarith⟩
        · push_neg at hx
          exact ⟨Or.inl rfl, by linarith, by linarith, fun _ => rfl,
            fun hc => absurd hc (not_lt.mpr (by linarith))⟩
      · exact ⟨Or.inl rfl, by linarith, by linarith, fun _ => rfl,
          fun hc => absurd hc (not_lt.mpr (by linarith))⟩
  · have hf2 := hf
    push_neg at hf2
    obtain ⟨hf1a, hf1b⟩ := hf2
    simp only [axStep, if_neg hf, axInv]
    rcases hs with h | h
    · rw [h]
      exact ⟨Or.inl rfl, by linarith, by linarith, fun _ => rfl,
        fun hc => absurd hc (not_lt.mpr (by linarith))⟩
    · rw [h]
      exact ⟨Or.inr rfl, by linarith, by linarith,
        fun hc => absurd hc (not_lt.mpr (by linarith)), fun _ => rfl⟩

theorem handleAmbient_eq (c : Circle) (w h : ℝ) (hw : w ≠ 0) (hh : h ≠ 0) :
    c.handleAmbient w h = Except.ok { c with
      x := (axStep c.radius w (c.x, c.dx)).1,
      dx := (axStep c.radius w (c.x, c.dx)).2,
      y := (axStep c.radius h (c.y, c.dy)).1,
      dy := (axStep c.radius h (c.y, c.dy)).2 } := by
  rw [Circle.handleAmbient, if_neg (by tauto)]
  by_cases h1 : w ≤ c.x + c.radius ∨ c.x ≤ c.radius <;>
    by_cases h2 : h ≤ c.y + c.radius ∨ c.y ≤ c.radius <;>
    simp [Circle.updateDX, Circle.updateDY,
      Circle.updatePositionWithVelocity, axStep, h1, h2]

theorem ambient_run (w h : ℝ) (tf : TravelFactor) (threshold : ℝ)
    (rnds : ℕ → ℝ × ℝ) (hw : w ≠ 0) (hh : h ≠ 0) :
    ∀ (n : ℕ) (c : Circle) (vx vy : ℝ),
      c.behavior = CircleBehavior.AMBIENT → 0 ≤ vx → 0 ≤ vy →
      0 ≤ c.radius → 2 * c.radius ≤ w → 2 * c.radius ≤ h →
      axInv c.radius w vx (c.x, c.dx) → axInv c.radius h vy (c.y, c.dy) →
      ∃ c2, Circle.updateRun (some ⟨w, h⟩) tf threshold rnds n c =
          Except.ok (c2, []) ∧ c2.radius = c.radius ∧
        axInv c.radius w vx (c2.x, c2.dx) ∧ axInv c.radius h vy (c2.y, c2.dy) := by
  intro n
  induction n with
  | zero => exact fun c vx vy hbv _ _ _ _ _ ix iy => ⟨c, rfl, rfl, ix, iy⟩
  | succ n ih =>
    intro c vx vy hbv hvx hvy hr h2w h2h ix iy
    have hstep : c.update (some ⟨w, h⟩) tf threshold (rnds n).1 (rnds n).2 =
        Except.ok ({ c with
          x := (axStep c.radius w (c.x, c.dx)).1,
          dx := (axStep c.radius w (c.x, c.dx)).2,
          y := (axStep c.radius h (c.y, c.dy)).1,
          dy := (axStep c.radius h (c.y, c.dy)).2 }, []) := by
      simp only [Circle.update, hbv, handleAmbient_eq c w h hw hh, Except.map]
    obtain ⟨c2, hrun, hrad, ix2, iy2⟩ := ih { c with x := (axStep c.radius w (c.x, c.dx)).1, dx := (axStep c.radius w (c.x, c.dx)).2, y := (axStep c.radius h (c.y, c.dy)).1, dy := (axStep c.radius h (c.y, c.dy)).2 } vx vy hbv hvx hvy hr h2w h2h (axStep_inv c.radius w vx hvx hr h2w (c.x, c.dx) ix) (axStep_inv c.radius h vy hvy hr h2h (c.y, c.dy) iy)
    refine ⟨c2, ?_, hrad, ix2, iy2⟩
    rw [updateRun_cons hstep, hrun]
    simp [Except.map]

/-- C3, amended. An AMBIENT particle that starts inside the radius-adjusted
bounds does NOT stay inside them after every update (see the counterexample:
the bounce check runs before the move, so the particle can overshoot); what
does hold across arbitrarily many frames is containment in the adjusted
interval widened by the per-frame speed on each axis: the position can exceed
[radius, bound − radius] by at most the velocity magnitude of that axis, and
never escapes further. -/
theorem C3_ambient_never_escapes_far (c : Circle) (w h : ℝ) (tf : TravelFactor)
    (threshold : ℝ) (rnds : ℕ → ℝ × ℝ)
    (hbv : c.behavior = CircleBehavior.AMBIENT)
    (hw : 0 < w) (hh : 0 < h) (hr : 0 ≤ c.radius)
    (h2w : 2 * c.radius ≤ w) (h2h : 2 * c.radius ≤ h)
    (hx1 : c.radius ≤ c.x) (hx2 : c.x ≤ w - c.radius)
    (hy1 : c.radius ≤ c.y) (hy2 : c.y ≤ h - c.radius) :
    ∀ n : ℕ, ∃ c2,
      Circle.updateRun (some ⟨w, h⟩) tf threshold rnds n c =
        Except.ok (c2, []) ∧
      c.radius - |c.dx| ≤ c2.x ∧ c2.x ≤ w - c.radius + |c.dx| ∧
      c.radius - |c.dy| ≤ c2.y ∧ c2.y ≤ h - c.radius + |c.dy| := by
  intro n
  have ix : axInv c.radius w |c.dx| (c.x, c.dx) := by
    refine ⟨?_, ?_, ?_, fun hc => absurd hc (not_lt.mpr hx2),
      fun hc => absurd hc (not_lt.mpr hx1)⟩
    · rcases abs_choice c.dx with h1 | h1
      · exact Or.inl h1.symm
      · exact Or.inr (by rw [h1, neg_neg])
    · show c.radius - |c.dx| ≤ c.x
      linarith [abs_nonneg c.dx]
    · show c.x ≤ w - c.radius + |c.dx|
      linarith [abs_nonneg c.dx]
  have iy : axInv c.radius h |c.dy| (c.y, c.dy) := by
    refine ⟨?_, ?_, ?_, fun hc => absurd hc (not_lt.mpr hy2),
      fun hc => absurd hc (not_lt.mpr hy1)⟩
    · rcases abs_choice c.dy with h1 | h1
      · exact Or.inl h1.symm
      · exact Or.inr (by rw [h1, neg_neg])
    · show c.radius - |c.dy| ≤ c.y
      linarith [abs_nonneg c.dy]
    · show c.y ≤ h - c.radius + |c.dy|
      linarith [abs_nonneg c.dy]
  obtain ⟨c2, hrun, hrad, ix2, iy2⟩ := ambient_run w h tf threshold rnds
    (ne_of_gt hw) (ne_of_gt hh) n c (|c.dx|) (|c.dy|) hbv (abs_nonneg c.dx)
    (abs_nonneg c.dy) hr h2w h2h ix iy
  exact ⟨c2, hrun, ix2.2.1, ix2.2.2.1, iy2.2.1, iy2.2.2.1⟩

/-- C3, witness: a concrete AMBIENT circle of radius 10 at (50, 50) with
velocity (1, 1) in a 100 by 100 canvas satisfies every hypothesis. -/
theorem C3_ambient_never_escapes_far_witness :
    ∃ c2,
      Circle.updateRun (some ⟨100, 100⟩) ⟨2, 2⟩ 1 (fun _ => (0, 0)) 7
          { x := 50, y := 50, dx := 1, dy := 1, radius := 10, color := "",
            behavior := CircleBehavior.AMBIENT, destination := none,
            orbit := none } =
        Except.ok (c2, []) ∧
      (10 : ℝ) - |(1 : ℝ)| ≤ c2.x ∧ c2.x ≤ 100 - 10 + |(1 : ℝ)| ∧
      (10 : ℝ) - |(1 : ℝ)| ≤ c2.y ∧ c2.y ≤ 100 - 10 + |(1 : ℝ)| :=
  C3_ambient_never_escapes_far
    { x := 50, y := 50, dx := 1, dy := 1, radius := 10, color := "",
      behavior := CircleBehavior.AMBIENT, destination := none, orbit := none }
    100 100 ⟨2, 2⟩ 1 (fun _ => (0, 0)) rfl (by norm_num) (by norm_num)
    (by norm_num) (by norm_num) (by norm_num) (by norm_num) (by norm_num)
    (by norm_num) (by norm_num) 7

/-- The C3 counterexample circle: AMBIENT, radius 10, position (89, 89),
velocity (2, 2) — strictly inside the adjusted bounds [10, 90] of a 100 by
100 canvas. -/
noncomputable def c3c : Circle :=
  { x := 89, y := 89, dx := 2, dy := 2, radius := 10, color := "",
    behavior := CircleBehavior.AMBIENT, destination := none, orbit := none }

/-- C3, counterexample to the claim as stated: the circle starts within the
radius-adjusted bounds (10 ≤ 89 ≤ 90), yet one update moves it to x = 91,
outside [0, 100] adjusted by its radius — the bounce check precedes the move,
so no velocity flip happens and the particle overshoots. -/
theorem C3_cex_one_step_escape :
    c3c.radius ≤ c3c.x ∧ c3c.x ≤ 100 - c3c.radius ∧
    c3c.update (some ⟨100, 100⟩) ⟨2, 2⟩ 1 0 0 =
      Except.ok ({ c3c with x := 91, y := 91 }, []) ∧
    ¬((91 : ℝ) ≤ 100 - c3c.radius) := by
  refine ⟨by norm_num [c3c], by norm_num [c3c], ?_, by norm_num [c3c]⟩
  have hamb : c3c.handleAmbient 100 100 =
      Except.ok { c3c with x := 91, y := 91 } := by
    rw [Circle.handleAmbient, if_neg (by norm_num)]
    rw [Circle.updateDX, if_neg (by norm_num [c3c])]
    rw [Circle.updateDY, if_neg (by norm_num [c3c])]
    rw [Circle.updatePositionWithVelocity]
    norm_num [c3c]
  simp only [Circle.update, c3c, Except.map]
  simp only [c3c] at hamb
  rw [hamb]

end CircleModel

/-- JS Array.prototype.splice restricted to deletion (the only use in this
repository): the start index is clamped into [0, length] (negative values
count from the end), the delete count into [0, length - start], and that
range of elements is removed. -/
def spliceRemove {α : Type} (l : List α) (start del : ℤ) : List α :=
  let len : ℤ := l.length
  let s : ℤ := if start < 0 then max (len + start) 0 else min start len
  let d : ℤ := min (max del 0) (len - s)
  l.take s.toNat ++ l.drop (s.toNat + d.toNat)

/-- One cell of the CharacterMapper getArrayWidth scan: the accumulator is
(firstElementIndex, lastElementIndex), both starting at -1; a truthy cell at
a smaller index than the recorded first overwrites BOTH indices, a truthy
cell beyond the recorded last only the last. -/
def widthCell (acc : ℤ × ℤ) (cell : ℕ × Bool) : ℤ × ℤ :=
  if cell.2 = true ∧ (acc.1 < 0 ∨ (cell.1 : ℤ) < acc.1) then
    ((cell.1 : ℤ), (cell.1 : ℤ))
  else if cell.2 = true ∧ (cell.1 : ℤ) > acc.2 then (acc.1, (cell.1 : ℤ))
  else acc

/-- CharacterMapper getArrayWidth: scan every row, then return the pair
[lastElementIndex - firstElementIndex + 1, firstElementIndex]. -/
def getArrayWidth (array : List (List Bool)) : ℤ × ℤ :=
  let fl := array.foldl (fun acc row => row.enum.foldl widthCell acc) (-1, -1)
  (fl.2 - fl.1 + 1, fl.1)

/-- CharacterMapper trimExcess: splice the first firstElementIndex cells off
every row, then splice everything from index width on. -/
def trimExcess (array : List (List Bool)) : List (List Bool) :=
  let wf := getArrayWidth array
  array.map (fun row =>
    let row1 := spliceRemove row 0 wf.2
    spliceRemove row1 wf.1 (row1.length : ℤ))

/-- The stride-4 scan of convertTo2DArray: every fourth byte of the RGBA
image data array (the red channel). -/
def everyFourth : List ℕ → List ℕ
  | [] => []
  | [a] => [a]
  | [a, _] => [a]
  | [a, _, _] => [a]
  | a :: _ :: _ :: _ :: rest => a :: everyFourth rest

/-- The row-chunking loop of convertTo2DArray: a full row is pushed only when
the NEXT pixel arrives, so the final row is never pushed and is dropped. -/
def chunkRows (width : ℕ) (pixels : List Bool) : List (List Bool) :=
  (pixels.foldl (fun acc p =>
    let acc2 := if acc.2.length = width then
      (acc.1 ++ [acc.2], ([] : List Bool)) else acc
    (acc2.1, acc2.2 ++ [p])) (([] : List (List Bool)), ([] : List Bool))).1

/-- CharacterMapper convertTo2DArray: reduce every fourth byte to presence
(the exact ink value 255), chunk into rows of the canvas width, and trim. -/
def convertTo2DArray (width : ℕ) (imageArray : List ℕ) : List (List Bool) :=
  let pixels := (everyFourth imageArray).map (fun b => b == 255)
  trimExcess (chunkRows width pixels)

/-- The changedbehavior listener of part_008: look the circle up by identity
with indexOf (yielding -1 when absent), splice one element out at that index,
and push the circle onto the destination collection. -/
def reclassify {α : Type} [DecidableEq α] (circle : α)
    (fromList toList : List α) : List α × List α :=
  let circleIndex : ℤ :=
    match fromList.findIdx? (fun c => c == circle) with
    | some i => (i : ℤ)
    | none => -1
  (spliceRemove fromList circleIndex 1, toList ++ [circle])

/-- The mutable globals the part_008 typing controller works on: the
TRAVELING and ORBITING collections (a particle is identified by its computed
destination), the cursor position and the removeCount undo stack. -/
structure TyperState where
  traveling : List (ℚ × ℚ)
  orbiting : List (ℚ × ℚ)
  cursorX : ℚ
  cursorY : ℚ
  removeCount : List ℕ
deriving DecidableEq

/-- The destinations drawCharacter computes, one per truthy mask cell at row
r and column c: (0 + c * OFFSET + cursor.x, canvasCenterY / 2 + r * OFFSET +
cursor.y), in row-major scan order. -/
def spawnDests (offset canvasCenterY cx cy : ℚ)
    (mask : List (List Bool)) : List (ℚ × ℚ) :=
  (mask.enum.map (fun rc =>
    rc.2.enum.filterMap (fun cc =>
      if cc.2 then
        some (0 + (cc.1 : ℚ) * offset + cx,
          canvasCenterY / 2 + (rc.1 : ℚ) * offset + cy)
      else none))).flatten

/-- The number of truthy ink cells of a mask. -/
def inkCount (mask : List (List Bool)) : ℕ :=
  (mask.map (fun row => row.countP (fun b => b))).sum

/-- part_008 drawCharacter: spawn one TRAVELING particle per truthy cell of
the mask and return the count; then advance cursor.x by the first row length
times 6, wrapping (x to 0, y forward by rows times 8) when within 500 of the
window width. An empty mask throws (charArray[0] is undefined). -/
def drawCharacter (offset canvasCenterY innerWidth : ℚ)
    (mask : List (List Bool)) (st : TyperState) :
    Except String (ℕ × TyperState) :=
  match mask with
  | [] => Except.error "TypeError: charArray[0] is undefined"
  | r0 :: _ =>
      let spawned := spawnDests offset canvasCenterY st.cursorX st.cursorY mask
      let st1 := { st with traveling := st.traveling ++ spawned }
      let x2 := st1.cursorX + (r0.length : ℚ) * 6
      let st2 := if |innerWidth - x2| ≤ 500 then
          { st1 with cursorX := 0, cursorY := st1.cursorY + (mask.length : ℚ) * 8 }
        else { st1 with cursorX := x2 }
      Except.ok (spawned.length, st2)

/-- The part_008 keydown handler. Backspace: clear the TRAVELING collection,
splice the last removeCount entry worth of particles off the tail of the
ORBITING collection (an empty stack reads undefined, so nothing is removed),
pop the stack, and move cursor.x back by the fixed 35 * 6. Enter adjusts the
cursor and then falls through to the default, which draws the key and pushes
the spawn count. -/
def keydown (charMask : String → List (List Bool))
    (offset canvasCenterY innerWidth : ℚ) (key : String) (st : TyperState) :
    Except String TyperState :=
  if key = "Backspace" then
    let orb2 :=
      match st.removeCount.getLast? with
      | some amountToRemove =>
          spliceRemove st.orbiting
            ((st.orbiting.length : ℤ) - (amountToRemove : ℤ))
            (amountToRemove : ℤ)
      | none => spliceRemove st.orbiting 0 0
    Except.ok { st with traveling := [], orbiting := orb2, removeCount := st.removeCount.dropLast, cursorX := st.cursorX - 35 * 6 }
  else if key = "Enter" then
    let st1 := { st with cursorY := st.cursorY + 34 * 12, cursorX := 0 }
    (drawCharacter offset canvasCenterY innerWidth (charMask key) st1).map
      (fun r => { r.2 with removeCount := r.2.removeCount ++ [r.1] })
  else
    (drawCharacter offset canvasCenterY innerWidth (charMask key) st).map
      (fun r => { r.2 with removeCount := r.2.removeCount ++ [r.1] })

theorem spliceRemove_nat {α : Type} (l : List α) (i d : ℕ) :
    spliceRemove l (i : ℤ) (d : ℤ) =
      l.take i ++ l.drop (i + min d (l.length - i)) := by
  simp only [spliceRemove]
  rw [if_neg (by omega)]
  have hA : (min (i : ℤ) ((l.length : ℕ) : ℤ)).toNat = min i l.length := by
    omega
  have hB : (min (max (d : ℤ) 0)
      (((l.length : ℕ) : ℤ) - min (i : ℤ) ((l.length : ℕ) : ℤ))).toNat =
      min d (l.length - min i l.length) := by omega
  rw [hA, hB]
  rcases le_or_lt i l.length with hle | hlt
  · rw [min_eq_left hle]
  · rw [min_eq_right (le_of_lt hlt)]
    have h2 : l.length - i = 0 := by omega
    rw [h2]
    rw [List.take_of_length_le (le_of_lt hlt), List.take_length]
    have h3 : min d 0 = 0 := by omega
    rw [h3]
    rw [List.drop_eq_nil_of_le (by omega), List.drop_eq_nil_of_le (by omega)]

theorem spliceRemove_neg_one_one {α : Type} (l : List α) :
    spliceRemove l (-1) 1 = l.dropLast := by
  cases l with
  | nil => rfl
  | cons a t =>
      simp only [spliceRemove, List.length_cons]
      rw [if_pos (by omega)]
      push_cast
      have h1 : max ((t.length : ℤ) + 1 + -1) 0 = ((t.length : ℕ) : ℤ) := by
        omega
      rw [h1]
      have h2 : min (max (1 : ℤ) 0) ((t.length : ℤ) + 1 - (t.length : ℤ)) = 1 := by
        omega
      rw [h2]
      rw [Int.toNat_natCast]
      have h3 : (1 : ℤ).toNat = 1 := rfl
      rw [h3]
      rw [List.drop_eq_nil_of_le (by simp), List.append_nil]
      rw [List.dropLast_eq_take]
      simp

theorem spliceRemove_cons_succ {α : Type} (a : α) (t : List α) (i : ℕ)
    (d : ℤ) : spliceRemove (a :: t) ((i : ℤ) + 1) d =
      a :: spliceRemove t (i : ℤ) d := by
  simp only [spliceRemove, List.length_cons]
  rw [if_neg (by omega), if_neg (by omega)]
  push_cast
  have hs : min ((i : ℤ) + 1) ((t.length : ℤ) + 1) =
      min (i : ℤ) (t.length : ℤ) + 1 := by omega
  rw [hs]
  have hd : (t.length : ℤ) + 1 - (min (i : ℤ) (t.length : ℤ) + 1) =
      (t.length : ℤ) - min (i : ℤ) (t.length : ℤ) := by omega
  rw [hd]
  have h3 : (min (i : ℤ) (t.length : ℤ) + 1).toNat =
      (min (i : ℤ) (t.length : ℤ)).toNat + 1 := by omega
  rw [h3, List.take_succ_cons, List.cons_append]
  congr 1
  rw [show (min (i : ℤ) (t.length : ℤ)).toNat + 1 +
      (min (max d 0) ((t.length : ℤ) - min (i : ℤ) (t.length : ℤ))).toNat =
      ((min (i : ℤ) (t.length : ℤ)).toNat +
        (min (max d 0) ((t.length : ℤ) -
          min (i : ℤ) (t.length : ℤ))).toNat) + 1 by omega]
  rw [List.drop_succ_cons]

theorem spliceRemove_cons_zero_one {α : Type} (a : α) (t : List α) :
    spliceRemove (a :: t) 0 1 = t := by
  have h0 : (0 : ℤ) = ((0 : ℕ) : ℤ) := rfl
  have h1 : (1 : ℤ) = ((1 : ℕ) : ℤ) := rfl
  rw [h0, h1, spliceRemove_nat]
  simp only [List.take_zero, List.length_cons, List.nil_append, Nat.zero_add]
  rw [show min 1 (t.length + 1 - 0) = 1 by omega]
  rfl

/-- C6, counterexample: reclassifying a particle (5) that is absent from the
from-collection [1, 2, 3] is NOT a silent no-op: indexOf yields -1, and
splice(-1, 1) removes the LAST element, so the result is ([1, 2], [9, 5]) and
both collections changed. -/
theorem C6_cex_absent_removes_last :
    reclassify 5 [1, 2, 3] [9] = ([1, 2], [9, 5]) ∧
      ¬(reclassify 5 [1, 2, 3] [9] = ([1, 2, 3], [9])) := by
  decide

/-- C6, amended. The changedbehavior listener removes the particle from the
from-collection by identity (the first occurrence) and appends it to the
to-collection; but when the particle is NOT in the from-collection, indexOf
returns -1 and splice(-1, 1) silently removes the LAST element of the
from-collection (nothing when it is empty) while the particle is still
appended to the to-collection — not a no-op. -/
theorem C6_reclassify_identity_or_tail_loss {α : Type} [DecidableEq α]
    (p : α) (fromList toList : List α) :
    (p ∈ fromList → (reclassify p fromList toList).1 = fromList.erase p) ∧
    (p ∉ fromList → (reclassify p fromList toList).1 = fromList.dropLast) ∧
    (reclassify p fromList toList).2 = toList ++ [p] := by
  refine ⟨?_, ?_, rfl⟩
  · intro hmem
    induction fromList with
    | nil => cases hmem
    | cons a t ih =>
        by_cases hap : a = p
        · simp only [reclassify, List.findIdx?_cons, hap, beq_self_eq_true,
            if_true]
          rw [List.erase_cons_head]
          exact spliceRemove_cons_zero_one p t
        · have hmem2 : p ∈ t := by
            rcases List.mem_cons.mp hmem with h | h
            · exact absurd h.symm hap
            · exact h
          have hfind : t.findIdx? (fun c => c == p) ≠ none := by
            intro hnone
            have h0 := List.findIdx?_eq_none_iff.mp hnone p hmem2
            simp at h0
          obtain ⟨i, hi⟩ := Option.ne_none_iff_exists.mp hfind
          have hbeq : (a == p) = false := beq_eq_false_iff_ne.mpr hap
          simp only [reclassify, List.findIdx?_cons, hbeq,
            List.findIdx?_succ, ← hi, Option.map_some', Bool.false_eq_true,
            if_false]
          have hrec := ih hmem2
          simp only [reclassify, ← hi] at hrec
          rw [List.erase_cons_tail (by simp [hap])]
          rw [show ((i + 1 : ℕ) : ℤ) = ((i : ℕ) : ℤ) + 1 by push_cast; ring]
          rw [spliceRemove_cons_succ a t i 1, hrec]
  · intro hmem
    have hfind : fromList.findIdx? (fun c => c == p) = none := by
      rw [List.findIdx?_eq_none_iff]
      intro x hx
      rw [beq_eq_false_iff_ne]
      intro hxp
      exact hmem (hxp ▸ hx)
    simp only [reclassify, hfind]
    exact spliceRemove_neg_one_one fromList

theorem foldl_widthCell_false (l : List Bool) :
    (∀ b ∈ l, b = false) →
      ∀ (k : ℕ) (acc : ℤ × ℤ), (List.enumFrom k l).foldl widthCell acc = acc := by
  induction l with
  | nil => intro _ k acc; rfl
  | cons b t ih =>
      intro hl k acc
      have hb : b = false := hl b (List.mem_cons_self b t)
      have ht : ∀ x ∈ t, x = false := fun x hx =>
        hl x (List.mem_cons_of_mem b hx)
      rw [List.enumFrom_cons, List.foldl_cons]
      rw [show widthCell acc (k, b) = acc from by simp [widthCell, hb]]
      exact ih ht (k + 1) acc

theorem getArrayWidth_all_false (mask : List (List Bool))
    (hm : ∀ row ∈ mask, ∀ b ∈ row, b = false) :
    getArrayWidth mask = (1, -1) := by
  have hfold : mask.foldl (fun acc row => row.enum.foldl widthCell acc)
      (-1, -1) = (-1, -1) := by
    induction mask with
    | nil => rfl
    | cons r t ih =>
        rw [List.foldl_cons]
        rw [show r.enum.foldl widthCell ((-1 : ℤ), (-1 : ℤ)) = (-1, -1) from
          foldl_widthCell_false r (hm r (List.mem_cons_self r t)) 0 (-1, -1)]
        exact ih (fun row hrow => hm row (List.mem_cons_of_mem r hrow))
  unfold getArrayWidth
  rw [hfold]
  rfl

theorem spliceRemove_zero_negone {α : Type} (l : List α) :
    spliceRemove l 0 (-1) = l := by
  simp only [spliceRemove]
  rw [if_neg (by omega)]
  rw [show min (0 : ℤ) ((l.length : ℕ) : ℤ) = 0 by omega]
  rw [show min (max (-1 : ℤ) 0) (((l.length : ℕ) : ℤ) - 0) = 0 by omega]
  simp

theorem spliceRemove_one_length {α : Type} (l : List α) :
    spliceRemove l 1 (l.length : ℤ) = l.take 1 := by
  rw [show (1 : ℤ) = ((1 : ℕ) : ℤ) from rfl, spliceRemove_nat]
  rw [List.drop_eq_nil_of_le (by omega), List.append_nil]

theorem trimExcess_all_false (mask : List (List Bool))
    (hm : ∀ row ∈ mask, ∀ b ∈ row, b = false) :
    trimExcess mask = mask.map (fun row => row.take 1) := by
  have hfun : (fun row : List Bool =>
      spliceRemove (spliceRemove row 0 (-1)) 1
        ((spliceRemove row 0 (-1)).length : ℤ)) =
      (fun row : List Bool => row.take 1) := by
    funext row
    rw [spliceRemove_zero_negone, spliceRemove_one_length]
  unfold trimExcess
  rw [getArrayWidth_all_false mask hm]
  dsimp only
  rw [hfun]

/-- C5, amended. A mask with no ink cells does not trim to zero columns:
getArrayWidth reports width last - first + 1 = -1 - (-1) + 1 = 1 with first
index -1, splice(0, -1) removes nothing and splice(1, length) keeps the first
cell, so every row is trimmed to its first (non-ink) cell — width one, not
zero — and no error occurs (the functions are total). -/
theorem C5_no_ink_mask_single_column (mask : List (List Bool))
    (hm : ∀ row ∈ mask, ∀ b ∈ row, b = false) :
    getArrayWidth mask = (1, -1) ∧
      trimExcess mask = mask.map (fun row => row.take 1) :=
  ⟨getArrayWidth_all_false mask hm, trimExcess_all_false mask hm⟩

/-- C5, witness: the all-false two-cell row trims to its first cell. -/
theorem C5_no_ink_mask_single_column_witness :
    getArrayWidth [[false, false]] = (1, -1) ∧
      trimExcess [[false, false]] =
        [[false, false]].map (fun row => row.take 1) :=
  C5_no_ink_mask_single_column [[false, false]] (by decide)

/-- C5, counterexample to the claim as stated: a 2 by 2 no-ink image (16 RGBA
bytes, no red byte 255) converts to the mask [[false]] — one row of width 1,
not an empty mask with every row trimmed to length 0. -/
theorem C5_cex_trim_leaves_one_column :
    convertTo2DArray 2 (List.replicate 16 0) = [[false]] ∧
      ¬(∀ row ∈ convertTo2DArray 2 (List.replicate 16 0), row.length = 0) := by
  constructor
  · rfl
  · decide

theorem filterMap_ink_length (g : ℕ × Bool → ℚ × ℚ) :
    ∀ (row : List Bool) (k : ℕ),
      ((List.enumFrom k row).filterMap
        (fun cc => if cc.2 then some (g cc) else none)).length =
      row.countP (fun b => b) := by
  intro row
  induction row with
  | nil => intro k; rfl
  | cons b t ih =>
      intro k
      rw [List.enumFrom_cons]
      cases b with
      | false =>
          rw [List.filterMap_cons_none (by simp)]
          rw [ih (k + 1), List.countP_cons]
          simp
      | true =>
          rw [@List.filterMap_cons_some (ℕ × Bool) (ℚ × ℚ)
            (fun cc => if cc.2 = true then some (g cc) else none) (k, true)
            (List.enumFrom (k + 1) t) (g (k, true)) (by simp)]
          rw [List.length_cons, ih (k + 1), List.countP_cons]
          simp

theorem spawnDests_length (offset canvasCenterY cx cy : ℚ)
    (mask : List (List Bool)) :
    (spawnDests offset canvasCenterY cx cy mask).length = inkCount mask := by
  unfold spawnDests inkCount
  rw [List.length_flatten, List.map_map]
  have hgen : ∀ (m : List (List Bool)) (k : ℕ),
      (List.enumFrom k m).map (List.length ∘ fun rc =>
        rc.2.enum.filterMap (fun cc => if cc.2 then
          some (0 + (cc.1 : ℚ) * offset + cx,
            canvasCenterY / 2 + (rc.1 : ℚ) * offset + cy) else none)) =
      m.map (fun row => row.countP (fun b => b)) := by
    intro m
    induction m with
    | nil => intro k; rfl
    | cons r t ih =>
        intro k
        rw [List.enumFrom_cons, List.map_cons, List.map_cons, ih (k + 1)]
        congr 1
        exact filterMap_ink_length _ r 0
  exact congrArg List.sum (hgen mask 0)

theorem inkCount_all_false (mask : List (List Bool))
    (hm : ∀ row ∈ mask, ∀ b ∈ row, b = false) : inkCount mask = 0 := by
  unfold inkCount
  induction mask with
  | nil => rfl
  | cons r t ih =>
      rw [List.map_cons, List.sum_cons]
      rw [List.countP_eq_zero.mpr (fun b hb => by
        simp [hm r (List.mem_cons_self r t) b hb])]
      rw [ih (fun row hrow => hm row (List.mem_cons_of_mem r hrow))]

theorem keydown_draw (charMask : String → List (List Bool))
    (offset canvasCenterY iw : ℚ) (key : String) (r0 : List Bool)
    (rest : List (List Bool)) (st0 : TyperState)
    (hk1 : ¬(key = "Backspace")) (hk2 : ¬(key = "Enter"))
    (hmask : charMask key = r0 :: rest)
    (hnowrap : ¬(|iw - (st0.cursorX + (r0.length : ℚ) * 6)| ≤ 500)) :
    keydown charMask offset canvasCenterY iw key st0 = Except.ok
      { st0 with
        traveling := st0.traveling ++
          spawnDests offset canvasCenterY st0.cursorX st0.cursorY (r0 :: rest),
        cursorX := st0.cursorX + (r0.length : ℚ) * 6,
        removeCount := st0.removeCount ++
          [(spawnDests offset canvasCenterY st0.cursorX st0.cursorY
            (r0 :: rest)).length] } := by
  unfold keydown
  rw [if_neg hk1, if_neg hk2, hmask]
  unfold drawCharacter
  dsimp only
  rw [if_neg hnowrap]
  rfl

theorem spliceRemove_tail {α : Type} (orbOld moved : List α) (k : ℕ)
    (hlen : moved.length = k) :
    spliceRemove (orbOld ++ moved)
      (((orbOld ++ moved).length : ℤ) - (k : ℤ)) (k : ℤ) = orbOld := by
  have hl : (orbOld ++ moved).length = orbOld.length + k := by
    simp [hlen]
  rw [hl]
  rw [show ((orbOld.length + k : ℕ) : ℤ) - (k : ℤ) =
    ((orbOld.length : ℕ) : ℤ) by push_cast; ring]
  rw [spliceRemove_nat]
  rw [List.drop_eq_nil_of_le (by simp [hlen]), List.append_nil]
  exact List.take_left orbOld moved

theorem keydown_backspace (charMask : String → List (List Bool))
    (offset canvasCenterY iw : ℚ) (st : TyperState) (k : ℕ) (R0 : List ℕ)
    (orbOld moved : List (ℚ × ℚ))
    (hrc : st.removeCount = R0 ++ [k]) (horb : st.orbiting = orbOld ++ moved)
    (hlen : moved.length = k) :
    keydown charMask offset canvasCenterY iw "Backspace" st = Except.ok { st with traveling := [], orbiting := orbOld, removeCount := R0, cursorX := st.cursorX - 35 * 6 } := by
  unfold keydown
  rw [if_pos rfl, hrc, horb]
  rw [List.getLast?_concat]
  dsimp only
  rw [spliceRemove_tail orbOld moved k hlen]
  rw [List.dropLast_concat]

/-- C2, amended. Typing one character spawns exactly k TRAVELING particles,
k being the number of true ink cells of the trimmed mask, and advances the
cursor x-offset by the first-row width times 6; a subsequent backspace
(assuming all k particles have already transitioned, forming the tail of the
ORBITING collection) removes exactly those k most-recently-added ORBITING
particles, discards all current TRAVELING particles and pops the undo stack
— but it rolls the cursor x-offset back by the FIXED amount 35 * 6 = 210,
not by the per-keystroke advance, so the pre-keystroke value is restored
only when the mask row width is exactly 35. -/
theorem C2_type_backspace_tail_removal (charMask : String → List (List Bool))
    (offset canvasCenterY iw : ℚ) (key : String) (r0 : List Bool)
    (rest : List (List Bool)) (st0 : TyperState)
    (orbOld moved tl2 : List (ℚ × ℚ))
    (hk1 : ¬(key = "Backspace")) (hk2 : ¬(key = "Enter"))
    (hmask : charMask key = r0 :: rest)
    (hnowrap : ¬(|iw - (st0.cursorX + (r0.length : ℚ) * 6)| ≤ 500))
    (hlen : moved.length = inkCount (r0 :: rest)) :
    ∃ st1, keydown charMask offset canvasCenterY iw key st0 = Except.ok st1 ∧
      st1.traveling = st0.traveling ++
        spawnDests offset canvasCenterY st0.cursorX st0.cursorY (r0 :: rest) ∧
      (spawnDests offset canvasCenterY st0.cursorX st0.cursorY
        (r0 :: rest)).length = inkCount (r0 :: rest) ∧
      st1.orbiting = st0.orbiting ∧
      st1.cursorX = st0.cursorX + (r0.length : ℚ) * 6 ∧
      st1.removeCount = st0.removeCount ++ [inkCount (r0 :: rest)] ∧
      keydown charMask offset canvasCenterY iw "Backspace"
          { st1 with traveling := tl2, orbiting := orbOld ++ moved } =
        Except.ok { st1 with traveling := [], orbiting := orbOld, removeCount := st0.removeCount, cursorX := st0.cursorX + (r0.length : ℚ) * 6 - 35 * 6 } := by
  refine ⟨_, keydown_draw charMask offset canvasCenterY iw key r0 rest st0
    hk1 hk2 hmask hnowrap, rfl, spawnDests_length offset canvasCenterY
    st0.cursorX st0.cursorY (r0 :: rest), rfl, rfl,
    by dsimp only; rw [spawnDests_length], ?_⟩
  exact keydown_backspace charMask offset canvasCenterY iw _
    (inkCount (r0 :: rest)) st0.removeCount orbOld moved
    (by dsimp only; rw [spawnDests_length]) rfl hlen

/-- C2, witness: typing the one-ink-cell mask [[true]] from the empty state
(window width 1000, no wrap), with the one spawned particle transitioned to
the ORBITING tail, then backspacing. -/
theorem C2_type_backspace_tail_removal_witness :
    ∃ st1, keydown (fun _ => [[true]]) 1 0 1000 "a" ⟨[], [], 0, 0, []⟩ =
        Except.ok st1 ∧
      st1.traveling = [] ++ spawnDests 1 0 0 0 [[true]] ∧
      (spawnDests 1 0 0 0 [[true]]).length = inkCount [[true]] ∧
      st1.orbiting = [] ∧
      st1.cursorX = 0 + (([true] : List Bool).length : ℚ) * 6 ∧
      st1.removeCount = [] ++ [inkCount [[true]]] ∧
      keydown (fun _ => [[true]]) 1 0 1000 "Backspace"
          { st1 with traveling := [], orbiting := [] ++ [(0, 0)] } =
        Except.ok { st1 with traveling := [], orbiting := [], removeCount := [], cursorX := 0 + (([true] : List Bool).length : ℚ) * 6 - 35 * 6 } :=
  C2_type_backspace_tail_removal (fun _ => [[true]]) 1 0 1000 "a" [true] []
    ⟨[], [], 0, 0, []⟩ [] [(0, 0)] [] (by decide) (by decide) rfl
    (by norm_num) (by decide)

/-- C2, counterexample to the claim as stated: typing the width-1 mask
[[true]] advances the cursor x-offset from 0 to 6, and the following
backspace sets it to 6 - 210 = -204, NOT back to the pre-keystroke value
0 — the rollback is the fixed 35 * 6, not the keystroke advance. -/
theorem C2_cex_cursor_not_restored :
    keydown (fun _ => [[true]]) 1 0 1000 "a" ⟨[], [], 0, 0, []⟩ =
      Except.ok ⟨[(0, 0)], [], 6, 0, [1]⟩ ∧
    keydown (fun _ => [[true]]) 1 0 1000 "Backspace"
        ⟨[], [(0, 0)], 6, 0, [1]⟩ =
      Except.ok ⟨[], [], -204, 0, []⟩ ∧
    ¬((-204 : ℚ) = 0) := by
  have hsp : spawnDests 1 0 0 0 [[true]] = [(0, 0)] := by
    unfold spawnDests
    simp [List.enumFrom]
  have h1 := keydown_draw (fun _ => [[true]]) 1 0 1000 "a" [true] []
    ⟨[], [], 0, 0, []⟩ (by decide) (by decide) rfl (by norm_num)
  rw [hsp] at h1
  have h2 := keydown_backspace (fun _ => [[true]]) 1 0 1000
    ⟨[], [(0, 0)], 6, 0, [1]⟩ 1 [] [] [(0, 0)] rfl rfl rfl
  refine ⟨?_, ?_, by norm_num⟩
  · rw [h1]
    norm_num
  · rw [h2]
    norm_num

/-- C10. A keystroke whose trimmed mask has no true ink cells spawns zero
particles (drawCharacter returns 0, both collections unchanged), yet still
advances the cursor x-offset by the mask row length times 6 and pushes the 0
onto the undo stack; the later backspace then removes zero ORBITING
particles while still moving the cursor offset back (by the fixed 210). -/
theorem C10_no_ink_keystroke (charMask : String → List (List Bool))
    (offset canvasCenterY iw : ℚ) (key : String) (r0 : List Bool)
    (rest : List (List Bool)) (st0 : TyperState)
    (hk1 : ¬(key = "Backspace")) (hk2 : ¬(key = "Enter"))
    (hmask : charMask key = r0 :: rest)
    (hnowrap : ¬(|iw - (st0.cursorX + (r0.length : ℚ) * 6)| ≤ 500))
    (hfalse : ∀ row ∈ (r0 :: rest), ∀ b ∈ row, b = false) :
    ∃ st1, keydown charMask offset canvasCenterY iw key st0 = Except.ok st1 ∧
      (drawCharacter offset canvasCenterY iw (r0 :: rest) st0).map Prod.fst =
        Except.ok 0 ∧
      st1.traveling = st0.traveling ∧
      st1.orbiting = st0.orbiting ∧
      st1.cursorX = st0.cursorX + (r0.length : ℚ) * 6 ∧
      st1.removeCount = st0.removeCount ++ [0] ∧
      keydown charMask offset canvasCenterY iw "Backspace" st1 =
        Except.ok { st1 with traveling := [], orbiting := st1.orbiting, removeCount := st0.removeCount, cursorX := st1.cursorX - 35 * 6 } := by
  have hsp : spawnDests offset canvasCenterY st0.cursorX st0.cursorY
      (r0 :: rest) = [] := by
    rw [← List.length_eq_zero]
    rw [spawnDests_length, inkCount_all_false _ hfalse]
  have hdraw := keydown_draw charMask offset canvasCenterY iw key r0 rest st0
    hk1 hk2 hmask hnowrap
  rw [hsp] at hdraw
  refine ⟨_, hdraw, ?_, by simp, rfl, rfl, by simp, ?_⟩
  · unfold drawCharacter
    dsimp only
    rw [if_neg hnowrap, hsp]
    rfl
  · have hb := keydown_backspace charMask offset canvasCenterY iw
      { st0 with
        traveling := st0.traveling ++ [],
        cursorX := st0.cursorX + (r0.length : ℚ) * 6,
        removeCount := st0.removeCount ++ [List.length ([] : List (ℚ × ℚ))] }
      0 st0.removeCount st0.orbiting [] (by simp) (by simp) rfl
    exact hb

/-- C10, witness: a keystroke with the no-ink mask [[false]] from a state
with one TRAVELING and one ORBITING particle, followed by the backspace. -/
theorem C10_no_ink_keystroke_witness :
    ∃ st1, keydown (fun _ => [[false]]) 1 0 1000 "z"
        ⟨[(1, 2)], [(3, 4)], 0, 0, []⟩ = Except.ok st1 ∧
      (drawCharacter 1 0 1000 [[false]]
        ⟨[(1, 2)], [(3, 4)], 0, 0, []⟩).map Prod.fst = Except.ok 0 ∧
      st1.traveling = [(1, 2)] ∧
      st1.orbiting = [(3, 4)] ∧
      st1.cursorX = 0 + (([false] : List Bool).length : ℚ) * 6 ∧
      st1.removeCount = [] ++ [0] ∧
      keydown (fun _ => [[false]]) 1 0 1000 "Backspace" st1 =
        Except.ok { st1 with traveling := [], orbiting := st1.orbiting, removeCount := [], cursorX := st1.cursorX - 35 * 6 } :=
  C10_no_ink_keystroke (fun _ => [[false]]) 1 0 1000 "z" [false] []
    ⟨[(1, 2)], [(3, 4)], 0, 0, []⟩ (by decide) (by decide) rfl (by norm_num)
    (by decide)

end SineTyper
